import Mathlib

/-!
Verification of `tripscrape` (`src/tripscrape/reviews.py`), a scraper of
reviews.  The Python source is embedded shallowly:

* decoded JSON blobs become the mutual inductive `Json`/`JsonList`/`JsonObj`;
* `ReviewScraper.traverse` becomes `Json.traverse`;
* the record-mapping loop of `scrape_page` (lines 245-293) becomes
  `processRecord` / `processRecords` / `runLists`, with each `print` and each
  issued SQL statement modelled as an `Event`;
* the fetch/retry loops of `scrape_page` (lines 220-243) become `fetchLoop`
  and `searchLoop` over a finite stream of `Response`s (the HTTP collaborator
  is external, so a run is modelled against the sequence of outcomes it
  returns); an exhausted stream while still retrying is reported as `looping`;
* `do_scrape` becomes `doScrapeRow` / `doScrape`, emitting a trace of events;
* the `ON CONFLICT DO NOTHING` upserts of `update_review` become
  `upsertReview` / `persistReviews` over a list of rows.

The classes `Review`, `User`, `Attraction` and the `Scraper` base class live
in the `tripscrape` package module which is not under `src/`; those parts are
modelled from the spec and marked as such in their doc comments.
-/

set_option autoImplicit false

namespace Tripscrape

mutual

/-- JSON values as produced by `json.loads` on the extracted data blob.
Objects keep their entries in source order (Python dicts preserve insertion
order). -/
inductive Json : Type where
  | null : Json
  | bool (b : Bool) : Json
  | num (n : Int) : Json
  | str (s : String) : Json
  | arr (xs : JsonList) : Json
  | obj (kvs : JsonObj) : Json
  deriving DecidableEq, Repr

inductive JsonList : Type where
  | nil : JsonList
  | cons (hd : Json) (tl : JsonList) : JsonList
  deriving DecidableEq, Repr

inductive JsonObj : Type where
  | nil : JsonObj
  | cons (k : String) (v : Json) (tl : JsonObj) : JsonObj
  deriving DecidableEq, Repr

end

/-- The elements of a `JsonList` as a Lean list. -/
def JsonList.toList : JsonList → List Json
  | .nil => []
  | .cons v tl => v :: tl.toList

mutual

/-- Embedding of `ReviewScraper.traverse` (reviews.py lines 187-205): walk a
decoded value depth first; at an object entry whose key is `"reviews"` yield
the value without descending into it, otherwise recurse into the value; for a
list recurse into each element.  The lazy generator is embedded as the eager
list of everything it yields, in yield order. -/
def Json.traverse : Json → List Json
  | .obj kvs => JsonObj.traverseObj kvs
  | .arr xs => JsonList.traverseList xs
  | _ => []

def JsonObj.traverseObj : JsonObj → List Json
  | .nil => []
  | .cons k v tl =>
    (if k = "reviews" then [v] else Json.traverse v) ++ JsonObj.traverseObj tl

def JsonList.traverseList : JsonList → List Json
  | .nil => []
  | .cons v tl => Json.traverse v ++ JsonList.traverseList tl

end

mutual

/-- Whether the key `"reviews"` occurs anywhere in a value (used to state the
"no collection key anywhere" case of the spec). -/
def Json.hasReviews : Json → Bool
  | .obj kvs => JsonObj.hasReviewsObj kvs
  | .arr xs => JsonList.hasReviewsList xs
  | _ => false

def JsonObj.hasReviewsObj : JsonObj → Bool
  | .nil => false
  | .cons k v tl =>
    k = "reviews" || Json.hasReviews v || JsonObj.hasReviewsObj tl

def JsonList.hasReviewsList : JsonList → Bool
  | .nil => false
  | .cons v tl => Json.hasReviews v || JsonList.hasReviewsList tl

end

/-- The concrete page fragment from the spec's example:
`\x7b"a": \x7b"reviews": [1,2]\x7d, "b": \x7b"reviews": []\x7d\x7d`. -/
def exampleC3 : Json :=
  Json.obj (JsonObj.cons ("a")
    (Json.obj (JsonObj.cons ("reviews")
      (Json.arr (JsonList.cons (Json.num 1) (JsonList.cons (Json.num 2) JsonList.nil)))
      JsonObj.nil))
    (JsonObj.cons ("b")
      (Json.obj (JsonObj.cons ("reviews") (Json.arr JsonList.nil) JsonObj.nil))
      JsonObj.nil))

def JsonObj.findKey : JsonObj → String → Option Json
  | .nil, _ => none
  | .cons k v tl, key => if k = key then some v else JsonObj.findKey tl key

/-- Python subscript `v[k]` on a decoded value: an entry lookup when `v` is an
object, otherwise a failure (`TypeError`), and a failure (`KeyError`) when the
key is absent.  The lookup returns `none` in the failing cases; each call site
turns `none` into the exception Python raises there. -/
def Json.getKey : Json → String → Option Json
  | .obj kvs, k => JsonObj.findKey kvs k
  | _, _ => none

/-- A chain of subscripts `v[k1][k2]...`, `none` as soon as one step fails. -/
def Json.getPath : Json → List String → Option Json
  | v, [] => some v
  | v, k :: ks =>
    match Json.getKey v k with
    | some v2 => Json.getPath v2 ks
    | none => none

/-- The Python exceptions the embedded fragments of `scrape_page` can raise. -/
inductive PyErr : Type where
  | lookupError
  | typeError
  | transportError
  | attributeError
  | jsonDecodeError
  deriving DecidableEq, Repr

/-- Modelled from the spec: the `Review` class lives in the `tripscrape`
package module, which is not under `src/`.  Spec §3 gives its fields (id,
title, rating, date, full text, attraction id, user profile), user profile
`string | absent`; all fields start absent and are filled by the mapping loop.
The field order matches the column list of the INSERT in `update_review`
(reviews.py line 111). -/
structure Review where
  ID : Option Json := none
  title : Option Json := none
  rating : Option Json := none
  date : Option Json := none
  full : Option Json := none
  attr_ID : Option Int := none
  user_profile : Option Json := none
  deriving DecidableEq, Repr

/-- Modelled from the spec: the `User` class is likewise not under `src/`;
spec §3 gives fields profile, location, contributions, helpful votes, each
`| absent`.  `location` keeps the looked-up hometown value itself; the
`json.dumps` serialisation applied on reviews.py line 267 is a stdlib
collaborator and does not affect presence or identity. -/
structure User where
  profile : Option Json := none
  location : Option Json := none
  contributions : Option Json := none
  helpful_votes : Option Json := none
  deriving DecidableEq, Repr

/-- The arguments of one `print_missing_info` call (reviews.py lines
148-169): the kind of missing information and its locating context. -/
structure Diag where
  info_type : String
  attr_ID : Int
  page_no : Nat
  review_no : Int
  url : String
  deriving DecidableEq, Repr

/-- One observable step of the scraper: a `print` diagnostic or an issued SQL
statement.  Purely cosmetic prints that no claim mentions (e.g. the detail
print on reviews.py line 311) are not modelled. -/
inductive Event : Type where
  | scrapingPage (url : String)
  | reloading (url : String)
  | sleepSec (n : Nat)
  | weirdRetry (index : Nat)
  | missing (d : Diag)
  | updatingUser (profile : Option Json)
  | userUpsert (u : User)
  | emptyUserInfo
  | reviewUpsert (r : Review)
  | attrUpsert (id : Int) (loc : Int × Int) (numReviews : Int)
  | setScraped (id : Int) (b : Bool)
  | throttle
  deriving DecidableEq, Repr

/-- A required subscript `r[k]` (reviews.py lines 251-257): the lookup error
propagates uncaught when the key is missing or `r` is not an object. -/
def reqField (r : Json) (k : String) : Except PyErr Json :=
  match Json.getKey r k with
  | some v => Except.ok v
  | none => Except.error PyErr.lookupError

/-- The Python value a successful subscript chain stores: `json.loads`
decodes JSON `null` to Python `None`, which is the very value an unset
optional field holds, so a lookup that succeeds with `null` is
indistinguishable from an absent field at `update_user`'s
`user.profile != None` guard (reviews.py line 126).  A failed lookup is
already `none`. -/
def pyNorm : Option Json → Option Json
  | some Json.null => none
  | v => v

/-- Embedding of the body of the record loop (reviews.py lines 248-287): the
five required fields are read first, in source order, any failure propagating;
then the four guarded optional accesses, each failure (exception) logged via
`print_missing_info` and the field left absent.  A lookup that succeeds with
JSON `null` raises nothing — so no diagnostic — but stores Python `None`
(`pyNorm`); the hometown is not normalised because it passes through
`json.dumps` (line 267), which turns `None` into the present string "null".
Returns the mapped `Review` and `User` together with the diagnostics emitted
during mapping. -/
def processRecord (attrID : Int) (index : Nat) (url : String) (ridx : Nat)
    (r : Json) : Except PyErr (Review × User × List Event) := do
  let vid ← reqField r ("id")
  let vtitle ← reqField r ("title")
  let vrating ← reqField r ("rating")
  let vtext ← reqField r ("text")
  let vdate ← reqField r ("publishedDate")
  let profileLookup := Json.getPath r ["userProfile", "route", "url"]
  let e1 : List Event := if profileLookup.isNone then
    [Event.missing ⟨"user profile", attrID, index, (ridx : Int), url⟩] else []
  let hometown := Json.getPath r ["userProfile", "hometown"]
  let e2 : List Event := if hometown.isNone then
    [Event.missing ⟨"user location", attrID, index, (ridx : Int), url⟩] else []
  let contribLookup :=
    Json.getPath r ["userProfile", "contributionCounts", "sumAllUgc"]
  let e3 : List Event := if contribLookup.isNone then
    [Event.missing ⟨"user contributions", attrID, index, (ridx : Int), url⟩] else []
  let helpfulLookup :=
    Json.getPath r ["userProfile", "contributionCounts", "helpfulVote"]
  let e4 : List Event := if helpfulLookup.isNone then
    [Event.missing ⟨"helpful", attrID, index, (ridx : Int), url⟩] else []
  let review : Review :=
    ⟨some vid, some vtitle, some vrating, some vdate, some vtext, some attrID,
     pyNorm profileLookup⟩
  let user : User :=
    ⟨pyNorm profileLookup, hometown, pyNorm contribLookup, pyNorm helpfulLookup⟩
  pure (review, user, e1 ++ e2 ++ e3 ++ e4)

/-- The events of reviews.py lines 289-290 for one mapped record:
`update_user` (lines 116-134) always prints the profile, issues the user
INSERT only when `user.profile != None` and otherwise prints
"Empty user information"; `update_review` (lines 101-114) then issues the
review INSERT unconditionally.  The guard tests the Python value, so a
profile holding decoded JSON `null` — which is `None` — is treated as absent
(`pyNorm`). -/
def recordEvents (review : Review) (user : User) (diags : List Event) :
    List Event :=
  diags ++ Event.updatingUser user.profile ::
    (match pyNorm user.profile with
     | some _ => [Event.userUpsert user]
     | none => [Event.emptyUserInfo]) ++ [Event.reviewUpsert review]

/-- Embedding of `for ridx, r in enumerate(reviews)` (reviews.py line 247):
records are processed in order; an exception from a record stops the loop,
keeping the events already emitted. -/
def processRecords (attrID : Int) (index : Nat) (url : String) :
    Nat → List Json → List Event × Option PyErr
  | _, [] => ([], none)
  | ridx, r :: rs =>
    match processRecord attrID index url ridx r with
    | .error e => ([], some e)
    | .ok (rev, u, diags) =>
      let rest := processRecords attrID index url (ridx + 1) rs
      (recordEvents rev u diags ++ rest.1, rest.2)

/-- Python truthiness of a decoded value (the `if reviews:` test on
reviews.py line 246). -/
def Json.truthy : Json → Bool
  | .null => false
  | .bool b => b
  | .num n => n != 0
  | .str s => !s.isEmpty
  | .arr .nil => false
  | .arr (.cons _ _) => true
  | .obj .nil => false
  | .obj (.cons _ _ _) => true

/-- Embedding of `for reviews in self.traverse(data)` (reviews.py lines
245-293): each yielded value is tested for truthiness; a truthy list has its
records processed, a truthy non-list raises `TypeError` when its first
element is subscripted (no events are emitted first); a falsy value is logged
via `print_missing_info("reviews", ..., -2, url)` and skipped.  An exception
stops the loop over the remaining yielded values. -/
def runLists (attrID : Int) (index : Nat) (url : String) :
    List Json → List Event × Option PyErr
  | [] => ([], none)
  | v :: vs =>
    if v.truthy then
      match v with
      | .arr xs =>
        match processRecords attrID index url 0 xs.toList with
        | (evs, some e) => (evs, some e)
        | (evs, none) =>
          let rest := runLists attrID index url vs
          (evs ++ rest.1, rest.2)
      | _ => ([], some PyErr.typeError)
    else
      let rest := runLists attrID index url vs
      (Event.missing ⟨"reviews", attrID, index, -2, url⟩ :: rest.1, rest.2)

/-- Embedding of the effect of `update_review` (reviews.py line 111) on the
reviews table: `INSERT ... ON CONFLICT DO NOTHING`, so a row whose ID is
already present leaves the table unchanged (no overwrite). -/
def upsertReview (rows : List Review) (r : Review) : List Review :=
  if rows.any (fun r0 => r0.ID == r.ID) then rows else rows ++ [r]

/-- The review table after issuing a sequence of review INSERTs in order. -/
def persistReviews (rows : List Review) : List Review → List Review
  | [] => rows
  | r :: rs => persistReviews (upsertReview rows r) rs

/-- The review INSERTs contained in a trace, in issue order. -/
def reviewWrites (evs : List Event) : List Review :=
  evs.filterMap fun e =>
    match e with
    | .reviewUpsert r => some r
    | _ => none

/-- The decode status of a captured data blob: after the `pageManifest`
re-quoting fix-up (reviews.py line 230) the text either decodes to a `Json`
value or makes `json.loads` raise. -/
inductive Blob : Type where
  | invalid
  | valid (data : Json)
  deriving DecidableEq, Repr

/-- One outcome of an HTTP GET plus marker extraction, as observed by
`scrape_page`: the GET can fail at transport level; the
`window.__WEB_CONTEXT__` marker can be absent (then `.group(1)` raises
`AttributeError`); otherwise a blob string is captured.  `requests.get` and
`re` are external collaborators (spec §6), so a run is modelled against the
finite sequence of outcomes they produce for successive calls. -/
inductive Response : Type where
  | transportError
  | noMarker
  | blob (b : Blob)
  deriving DecidableEq, Repr

/-- Embedding of the fetch/extract retry loop (reviews.py lines 220-228):
transport failures and a missing marker are caught by the bare `except`,
which prints `Reloading`, sleeps one second and retries; capturing a blob
(valid JSON or not) breaks out of the loop.  Returns the events printed
inside the loop, and the captured blob with the unconsumed stream, or `none`
when the stream was exhausted while the loop was still retrying. -/
def fetchLoop (url : String) :
    List Response → List Event × Option (Blob × List Response)
  | [] => ([], none)
  | .transportError :: rest =>
    let r := fetchLoop url rest
    (Event.reloading url :: Event.sleepSec 1 :: r.1, r.2)
  | .noMarker :: rest =>
    let r := fetchLoop url rest
    (Event.reloading url :: Event.sleepSec 1 :: r.1, r.2)
  | .blob b :: rest => ([], some (b, rest))

/-- Result of the empty-tree retry loop: still retrying when the stream ran
out, an uncaught exception, or decoded data whose traversal is non-empty. -/
inductive SearchResult : Type where
  | looping (evs : List Event)
  | raised (e : PyErr) (evs : List Event)
  | found (data : Json) (stream : List Response) (evs : List Event)
  deriving DecidableEq, Repr

/-- Embedding of the empty-tree retry loop (reviews.py lines 237-243): while
`next(traverser, sentinel)` hits the sentinel — i.e. the traversal of the
decoded data yields nothing — print the "Weird stuff" diagnostic and
re-fetch.  The loop body has no `try` and no sleep, so a transport failure, a
missing marker, or an invalid blob during a re-fetch raises uncaught. -/
def searchLoop (index : Nat) : List Response → Json → SearchResult
  | stream, data =>
    if (Json.traverse data).isEmpty then
      match stream with
      | [] => .looping [Event.weirdRetry index]
      | .transportError :: _ => .raised PyErr.transportError [Event.weirdRetry index]
      | .noMarker :: _ => .raised PyErr.attributeError [Event.weirdRetry index]
      | .blob .invalid :: _ => .raised PyErr.jsonDecodeError [Event.weirdRetry index]
      | .blob (.valid d) :: rest =>
        match searchLoop index rest d with
        | .looping evs => .looping (Event.weirdRetry index :: evs)
        | .raised e evs => .raised e (Event.weirdRetry index :: evs)
        | .found d2 s2 evs => .found d2 s2 (Event.weirdRetry index :: evs)
    else .found data stream []

/-- Outcome of one `scrape_page` call against a finite response stream. -/
inductive Outcome : Type where
  | looping (evs : List Event)
  | raised (e : PyErr) (evs : List Event)
  | done (evs : List Event)
  deriving DecidableEq, Repr

/-- Embedding of `scrape_page` (reviews.py lines 207-293): print the page
banner, run the fetch/extract retry loop, decode the blob (`json.loads` on
line 231 runs outside the `try`, so an invalid blob raises uncaught), run the
empty-tree retry loop, then process every value yielded by a fresh traversal
of the decoded data (line 245 restarts the generator, so the value consumed
by the peek on line 237 is processed too). -/
def scrapePageRun (url : String) (attrID : Int) (index : Nat)
    (stream : List Response) : Outcome :=
  match fetchLoop url stream with
  | (evs, none) => .looping (Event.scrapingPage url :: evs)
  | (evs, some (.invalid, _)) =>
    .raised PyErr.jsonDecodeError (Event.scrapingPage url :: evs)
  | (evs, some (.valid data, rest)) =>
    match searchLoop index rest data with
    | .looping evs2 => .looping (Event.scrapingPage url :: evs ++ evs2)
    | .raised e evs2 => .raised e (Event.scrapingPage url :: evs ++ evs2)
    | .found data2 _ evs2 =>
      match runLists attrID index url (Json.traverse data2) with
      | (evs3, some e) => .raised e (Event.scrapingPage url :: evs ++ evs2 ++ evs3)
      | (evs3, none) => .done (Event.scrapingPage url :: evs ++ evs2 ++ evs3)

/-- Modelled from the spec: `generate_page_links` (reviews.py lines 60-63)
delegates to the `Scraper` base class in the `tripscrape` package module,
which is not under `src/`.  Spec §4.5: the planner substitutes the page index
into a fixed URL template scoped to the search mode; this template realises
that substitution. -/
def pageUrl (url : String) (searchType : String) (i : Nat) : String :=
  url ++ "-" ++ searchType ++ "-or" ++ toString (i * 10)

/-- Modelled from the spec: spec §4.5 — an ordered sequence of page URLs, one
per page index from 0 to count−1, deterministic and stateless. -/
def generate_page_links (url : String) (searchType : String) (amount : Nat) :
    List String :=
  (List.range amount).map (pageUrl url searchType)

/-- The way a `do_scrape` run can stop early: an exception propagating out of
`scrape_page`, or a response stream exhausted while a retry loop was still
spinning. -/
inductive Halt : Type where
  | raised (e : PyErr)
  | looping
  deriving DecidableEq, Repr

/-- Embedding of the page loop of `do_scrape` (reviews.py lines 316-318):
pages are scraped in index order with a throttling sleep after each; an
exception out of `scrape_page` propagates, stopping the loop. -/
def runPages (attrID : Int) (responses : String → List Response) :
    Nat → List String → List Event × Option Halt
  | _, [] => ([], none)
  | index, link :: rest =>
    match scrapePageRun link attrID index (responses link) with
    | .done evs =>
      let r := runPages attrID responses (index + 1) rest
      (evs ++ Event.throttle :: r.1, r.2)
    | .raised e evs => (evs, some (Halt.raised e))
    | .looping evs => (evs, some Halt.looping)

/-- The triple returned by the external detail extractor
`selenium_utils.get_attr_details` (spec §6): geolocation, review count and
page count.  Coordinates pass through the model untouched. -/
structure AttrDetails where
  loc : Int × Int
  numReviews : Int
  numberOfPages : Nat

/-- Embedding of one iteration of the `do_scrape` loop (reviews.py lines
301-320) for a fetched row `(id, path)`: build the url, ask the detail
extractor, persist the attraction metadata (`update_attraction`, line 312),
build the page links, scrape each page, and finally set the scraped flag
(`set_scraped(a, True)`, line 320); an exception or an exhausted stream halts
the run before the flag is set. -/
def doScrapeRow (baseUrl searchType : String) (details : String → AttrDetails)
    (responses : String → List Response) (row : Int × String) :
    List Event × Option Halt :=
  match runPages row.1 responses 0
      (generate_page_links (baseUrl ++ row.2) searchType
        (details (baseUrl ++ row.2)).numberOfPages) with
  | (evs, none) =>
    (Event.attrUpsert row.1 (details (baseUrl ++ row.2)).loc
        (details (baseUrl ++ row.2)).numReviews
      :: evs ++ [Event.setScraped row.1 true], none)
  | (evs, some h) =>
    (Event.attrUpsert row.1 (details (baseUrl ++ row.2)).loc
        (details (baseUrl ++ row.2)).numReviews :: evs, some h)

/-- Embedding of the full `do_scrape` loop (reviews.py lines 295-320) over
the rows the iteration cursor returns. -/
def doScrape (baseUrl searchType : String) (details : String → AttrDetails)
    (responses : String → List Response) :
    List (Int × String) → List Event × Option Halt
  | [] => ([], none)
  | row :: rows =>
    match doScrapeRow baseUrl searchType details responses row with
    | (evs, none) =>
      let r := doScrape baseUrl searchType details responses rows
      (evs ++ r.1, r.2)
    | (evs, some h) => (evs, some h)

/-- The `attr_types` attribute: either a string — `"all"`, or the default
`("Sights & Landmarks")`, which is a plain string because the tuple on
reviews.py line 41 lacks a trailing comma — or a tuple of category names. -/
inductive AttrTypes : Type where
  | str (s : String)
  | tuple (ts : List String)
  deriving DecidableEq, Repr

/-- Python `len` of the selector: character count for a string, arity for a
tuple. -/
def AttrTypes.pyLen : AttrTypes → Nat
  | .str s => s.length
  | .tuple ts => ts.length

/-- Embedding of `read_attractions` (reviews.py lines 65-83): the SQL text
built and handed to `execute`, or `none` when no branch fires (a selector of
length 0 that is not `"all"`: no query is executed at all). -/
def readAttractionsQuery (a : AttrTypes) : Option String :=
  let base := "SELECT id, url FROM attractions WHERE scraped = False"
  if a = AttrTypes.str ("all") then some base
  else if a.pyLen = 1 then
    some (base ++ " WHERE attr_type IN (%s) AND scraped = False ORDER BY \"id\" DESC")
  else if a.pyLen > 1 then
    some (base ++ " WHERE attr_type IN %s AND scraped = False ORDER BY \"id\" DESC")
  else none

/-- Whether the first list starts the second. -/
def hasPrefixChars : List Char → List Char → Bool
  | [], _ => true
  | _ :: _, [] => false
  | p :: ps, c :: cs => p == c && hasPrefixChars ps cs

/-- The number of (possibly overlapping) occurrences of a pattern in a
character list. -/
def countOccur (pat : List Char) : List Char → Nat
  | [] => 0
  | c :: cs => (if hasPrefixChars pat (c :: cs) then 1 else 0) + countOccur pat cs

/-- A `SELECT` statement is syntactically well formed only if it has at most
one `WHERE` clause. -/
def sqlWhereOk (q : String) : Bool :=
  countOccur (" WHERE ").toList q.toList ≤ 1

/-- The events carried by a `SearchResult`. -/
def SearchResult.events : SearchResult → List Event
  | .looping evs => evs
  | .raised _ evs => evs
  | .found _ _ evs => evs

/-- Whether a raw record carries the five required fields read on reviews.py
lines 251-257. -/
def requiredOk (r : Json) : Bool :=
  (Json.getKey r ("id")).isSome && (Json.getKey r ("title")).isSome
    && (Json.getKey r ("rating")).isSome && (Json.getKey r ("text")).isSome
    && (Json.getKey r ("publishedDate")).isSome

/-- The `Review` the mapping loop produces for a record whose required fields
are present: required fields come from direct subscripts, the attraction id
from the caller, the user profile from the guarded path lookup. -/
def reviewOf (attrID : Int) (r : Json) : Review :=
  ⟨Json.getKey r ("id"), Json.getKey r ("title"), Json.getKey r ("rating"),
   Json.getKey r ("publishedDate"), Json.getKey r ("text"), some attrID,
   pyNorm (Json.getPath r ["userProfile", "route", "url"])⟩

/-- The `User` the mapping loop produces for a record: every field is a
guarded optional path lookup, stored as its Python value (a decoded `null`
is `None`, except the hometown, which passes through `json.dumps`). -/
def userOf (r : Json) : User :=
  ⟨pyNorm (Json.getPath r ["userProfile", "route", "url"]),
   Json.getPath r ["userProfile", "hometown"],
   pyNorm (Json.getPath r ["userProfile", "contributionCounts", "sumAllUgc"]),
   pyNorm (Json.getPath r ["userProfile", "contributionCounts", "helpfulVote"])⟩

/-- The diagnostics the mapping loop emits for a record: one per absent
optional user sub-field, in source order, each with its locating context. -/
def missingDiags (attrID : Int) (index : Nat) (url : String) (ridx : Nat)
    (r : Json) : List Event :=
  (if (Json.getPath r ["userProfile", "route", "url"]).isNone then
    [Event.missing ⟨"user profile", attrID, index, (ridx : Int), url⟩] else [])
  ++ ((if (Json.getPath r ["userProfile", "hometown"]).isNone then
    [Event.missing ⟨"user location", attrID, index, (ridx : Int), url⟩] else [])
  ++ ((if (Json.getPath r ["userProfile", "contributionCounts", "sumAllUgc"]).isNone then
    [Event.missing ⟨"user contributions", attrID, index, (ridx : Int), url⟩] else [])
  ++ (if (Json.getPath r ["userProfile", "contributionCounts", "helpfulVote"]).isNone then
    [Event.missing ⟨"helpful", attrID, index, (ridx : Int), url⟩] else [])))

/-- A page is well formed when every value yielded by the tree search is a
list whose records all carry the required fields. -/
def wellFormedLists (vs : List Json) : Bool :=
  vs.all fun v =>
    match v with
    | .arr xs => (JsonList.toList xs).all requiredOk
    | _ => false

/-- The records of a yielded value: the elements when it is a list, nothing
otherwise. -/
def yieldedRecords : Json → List Json
  | .arr xs => xs.toList
  | _ => []

/-- Whether an event is the "no reviews found" diagnostic — the
`print_missing_info("reviews", ...)` call for an empty yielded list
(reviews.py line 293). -/
def Event.isNoReviews : Event → Bool
  | .missing d => d.info_type == "reviews"
  | _ => false

/-- Whether an event is the `Scraping page` banner printed on entry to
`scrape_page`. -/
def Event.isScrapingPage : Event → Bool
  | .scrapingPage _ => true
  | _ => false

/-- Whether an event is a scraped-flag update (`set_scraped`). -/
def Event.isSetScraped : Event → Bool
  | .setScraped _ _ => true
  | _ => false

/-- Whether an event is an attraction metadata upsert
(`update_attraction`). -/
def Event.isAttrUpsert : Event → Bool
  | .attrUpsert _ _ _ => true
  | _ => false

/-- Events emitted strictly inside the body of a `scrape_page` call: never
the page banner, the attraction upsert, the scraped-flag update, or the
inter-page throttle. -/
def Event.pageInner : Event → Bool
  | .scrapingPage _ => false
  | .attrUpsert _ _ _ => false
  | .setScraped _ _ => false
  | .throttle => false
  | _ => true

/-- A record carrying all five required fields and no `userProfile`, used to
instantiate theorems at a concrete input. -/
def sampleRecord : Json :=
  Json.obj (JsonObj.cons ("id") (Json.num 7)
    (JsonObj.cons ("title") (Json.str ("t"))
      (JsonObj.cons ("rating") (Json.num 5)
        (JsonObj.cons ("text") (Json.str ("x"))
          (JsonObj.cons ("publishedDate") (Json.str ("d")) JsonObj.nil)))))

/-- A decoded page whose only yielded list holds `sampleRecord`. -/
def samplePage : Json :=
  Json.obj (JsonObj.cons ("reviews")
    (Json.arr (JsonList.cons sampleRecord JsonList.nil)) JsonObj.nil)

/-- A record missing every required field. -/
def badRecord : Json := Json.obj (JsonObj.cons ("oops") (Json.num 1) JsonObj.nil)

/-- A decoded page whose only yielded list holds `badRecord`. -/
def badPage : Json :=
  Json.obj (JsonObj.cons ("reviews")
    (Json.arr (JsonList.cons badRecord JsonList.nil)) JsonObj.nil)

mutual

theorem Json.traverse_eq_nil_of_not_hasReviews :
    ∀ v : Json, Json.hasReviews v = false → Json.traverse v = []
  | .null, _ => rfl
  | .bool _, _ => rfl
  | .num _, _ => rfl
  | .str _, _ => rfl
  | .arr xs, h => JsonList.traverseList_eq_nil_of_not_hasReviews xs h
  | .obj kvs, h => JsonObj.traverseObj_eq_nil_of_not_hasReviews kvs h

theorem JsonObj.traverseObj_eq_nil_of_not_hasReviews :
    ∀ kvs : JsonObj, JsonObj.hasReviewsObj kvs = false →
      JsonObj.traverseObj kvs = []
  | .nil, _ => rfl
  | .cons k v tl, h => by
    simp only [JsonObj.hasReviewsObj, Bool.or_eq_false_iff,
      decide_eq_false_iff_not] at h
    simp only [JsonObj.traverseObj, if_neg h.1.1,
      Json.traverse_eq_nil_of_not_hasReviews v h.1.2,
      JsonObj.traverseObj_eq_nil_of_not_hasReviews tl h.2, List.append_nil]

theorem JsonList.traverseList_eq_nil_of_not_hasReviews :
    ∀ xs : JsonList, JsonList.hasReviewsList xs = false →
      JsonList.traverseList xs = []
  | .nil, _ => rfl
  | .cons v tl, h => by
    simp only [JsonList.hasReviewsList, Bool.or_eq_false_iff] at h
    simp only [JsonList.traverseList,
      Json.traverse_eq_nil_of_not_hasReviews v h.1,
      JsonList.traverseList_eq_nil_of_not_hasReviews tl h.2, List.append_nil]

end

/-- C3: `traverse` yields, in depth-first source order, exactly the values of
object entries whose key is `"reviews"`, each yielded as-is without
descending into it; on any other entry it descends into the value, and it
recurses into array elements; an input with no `"reviews"` key anywhere
yields the empty sequence; on the spec's example it yields `[1,2]` then `[]`,
in that order. -/
theorem c3_treesearch :
    (∀ v : Json, Json.hasReviews v = false → Json.traverse v = [])
    ∧ (∀ (v : Json) (tl : JsonObj),
        Json.traverse (Json.obj (JsonObj.cons ("reviews") v tl))
          = v :: JsonObj.traverseObj tl)
    ∧ (∀ (k : String) (v : Json) (tl : JsonObj), k ≠ "reviews" →
        Json.traverse (Json.obj (JsonObj.cons k v tl))
          = Json.traverse v ++ JsonObj.traverseObj tl)
    ∧ (∀ (v : Json) (tl : JsonList),
        Json.traverse (Json.arr (JsonList.cons v tl))
          = Json.traverse v ++ JsonList.traverseList tl)
    ∧ Json.traverse exampleC3
        = [Json.arr (JsonList.cons (Json.num 1)
            (JsonList.cons (Json.num 2) JsonList.nil)),
           Json.arr JsonList.nil] := by
  refine ⟨Json.traverse_eq_nil_of_not_hasReviews, ?_, ?_, fun v tl => rfl, rfl⟩
  · intro v tl
    simp [Json.traverse, JsonObj.traverseObj]
  · intro k v tl hk
    simp [Json.traverse, JsonObj.traverseObj, hk]

theorem c3_treesearch_witness :
    Json.traverse (Json.obj (JsonObj.cons ("a") (Json.str ("y")) JsonObj.nil)) = []
    ∧ Json.traverse (Json.obj (JsonObj.cons ("a") (Json.num 1) JsonObj.nil))
        = Json.traverse (Json.num 1) ++ JsonObj.traverseObj JsonObj.nil :=
  ⟨c3_treesearch.1 (Json.obj (JsonObj.cons ("a") (Json.str ("y")) JsonObj.nil))
      (by decide),
   c3_treesearch.2.2.1 ("a") (Json.num 1) JsonObj.nil (by decide)⟩

/-- C9: `generate_page_links` given a total page count `amount` produces
exactly `amount` page URLs — the i-th entry is the fixed template
instantiated at page index i, so the indices run 0..amount−1 in ascending
order and there are no others; count 0 produces the empty sequence; the
planner is a pure function of its arguments (deterministic and stateless). -/
theorem c9_pagination (url searchType : String) (amount : Nat) :
    (generate_page_links url searchType amount).length = amount
    ∧ (∀ i : Nat, (generate_page_links url searchType amount)[i]?
        = if i < amount then some (pageUrl url searchType i) else none)
    ∧ generate_page_links url searchType 0 = [] := by
  refine ⟨by simp [generate_page_links], ?_, rfl⟩
  intro i
  by_cases hi : i < amount
  · simp [generate_page_links, hi]
  · rw [if_neg hi]
    exact List.getElem?_eq_none
      (by simpa [generate_page_links] using Nat.le_of_not_lt hi)

/-- C8 is a code bug: `read_attractions` appends a second `WHERE` clause to a
query template that already contains one, so on every selector other than
`"all"` the issued SQL is malformed (the database rejects it), while the
`"all"` selector issues the single-`WHERE` unfiltered query exactly as the
claim says. -/
theorem c8_read_attractions_query :
    readAttractionsQuery (AttrTypes.str ("all"))
      = some ("SELECT id, url FROM attractions WHERE scraped = False")
    ∧ (readAttractionsQuery (AttrTypes.str ("all"))).map sqlWhereOk = some true
    ∧ readAttractionsQuery (AttrTypes.tuple [("Museums"), ("Gardens")])
      = some ("SELECT id, url FROM attractions WHERE scraped = False WHERE attr_type IN %s AND scraped = False ORDER BY \"id\" DESC")
    ∧ (readAttractionsQuery (AttrTypes.tuple [("Museums"), ("Gardens")])).map
        sqlWhereOk = some false
    ∧ (readAttractionsQuery (AttrTypes.tuple [("Museums")])).map sqlWhereOk
      = some false := by
  refine ⟨rfl, by decide, rfl, by decide, by decide⟩

/-- C5: `scrape_page` enters the empty-tree retry path iff the traversal of
the decoded blob yields zero values: when at least one value is yielded —
even when that first value is the empty list, a legitimate zero-review page —
the loop exits at once with the same data and stream and no retry diagnostic;
when zero values are yielded the first event is the "Weird stuff"
diagnostic. -/
theorem c5_empty_tree_guard (index : Nat) (stream : List Response) (data : Json) :
    (Json.traverse data ≠ [] →
      searchLoop index stream data = SearchResult.found data stream [])
    ∧ (Json.traverse data = [] →
      (searchLoop index stream data).events.head? = some (Event.weirdRetry index))
    ∧ (Json.traverse data = [Json.arr JsonList.nil] →
      searchLoop index stream data = SearchResult.found data stream []) := by
  refine ⟨?_, ?_, ?_⟩
  · intro h
    rw [searchLoop.eq_def]
    simp [h]
  · intro h
    rw [searchLoop.eq_def]
    simp only [h, List.isEmpty_nil, if_true]
    cases stream with
    | nil => rfl
    | cons rsp rest =>
      cases rsp with
      | transportError => rfl
      | noMarker => rfl
      | blob b =>
        cases b with
        | invalid => rfl
        | valid d =>
          cases hs : searchLoop index rest d <;> simp [hs, SearchResult.events]
  · intro h
    rw [searchLoop.eq_def]
    simp [h]

theorem c5_empty_tree_guard_witness :
    searchLoop 0 [] exampleC3
        = SearchResult.found exampleC3 [] []
    ∧ (searchLoop 0 [Response.transportError] (Json.num 0)).events.head?
        = some (Event.weirdRetry 0)
    ∧ searchLoop 3 [Response.noMarker]
        (Json.obj (JsonObj.cons ("reviews") (Json.arr JsonList.nil) JsonObj.nil))
        = SearchResult.found
            (Json.obj (JsonObj.cons ("reviews") (Json.arr JsonList.nil) JsonObj.nil))
            [Response.noMarker] [] :=
  ⟨(c5_empty_tree_guard 0 [] exampleC3).1 (by decide),
   (c5_empty_tree_guard 0 [Response.transportError] (Json.num 0)).2.1 rfl,
   (c5_empty_tree_guard 3 [Response.noMarker]
      (Json.obj (JsonObj.cons ("reviews") (Json.arr JsonList.nil) JsonObj.nil))).2.2
      rfl⟩

theorem mem_persistReviews_of_mem {r0 : Review} {rows : List Review}
    (rs : List Review) (h : r0 ∈ rows) : r0 ∈ persistReviews rows rs := by
  induction rs generalizing rows with
  | nil => exact h
  | cons r rs ih =>
    show r0 ∈ persistReviews (upsertReview rows r) rs
    apply ih
    unfold upsertReview
    split
    · exact h
    · exact List.mem_append_left _ h

theorem exists_same_id_persistReviews (rows rs : List Review) :
    ∀ r ∈ rs, ∃ r0 ∈ persistReviews rows rs, r0.ID = r.ID := by
  induction rs generalizing rows with
  | nil => simp
  | cons r rs ih =>
    intro r1 h1
    rcases List.mem_cons.mp h1 with h1 | h1
    · subst h1
      show ∃ r0 ∈ persistReviews (upsertReview rows r1) rs, r0.ID = r1.ID
      by_cases hc : rows.any (fun r0 => r0.ID == r1.ID) = true
      · obtain ⟨r0, hr0, hid⟩ := List.any_eq_true.mp hc
        refine ⟨r0, mem_persistReviews_of_mem rs ?_, by simpa using hid⟩
        unfold upsertReview
        rw [if_pos hc]
        exact hr0
      · refine ⟨r1, mem_persistReviews_of_mem rs ?_, rfl⟩
        unfold upsertReview
        rw [if_neg hc]
        exact List.mem_append_right _ (by simp)
    · exact ih (upsertReview rows r) r1 h1

theorem persistReviews_eq_of_ids_present (rows rs : List Review)
    (h : ∀ r ∈ rs, ∃ r0 ∈ rows, r0.ID = r.ID) : persistReviews rows rs = rows := by
  induction rs with
  | nil => rfl
  | cons r rs ih =>
    obtain ⟨r0, hr0, hid⟩ := h r (by simp)
    have hc : rows.any (fun r1 => r1.ID == r.ID) = true :=
      List.any_eq_true.mpr ⟨r0, hr0, by simp [hid]⟩
    show persistReviews (upsertReview rows r) rs = rows
    unfold upsertReview
    rw [if_pos hc]
    exact ih fun r1 h1 => h r1 (List.mem_cons_of_mem _ h1)

theorem persistReviews_idem (rows rs : List Review) :
    persistReviews (persistReviews rows rs) rs = persistReviews rows rs :=
  persistReviews_eq_of_ids_present _ _ fun r hr =>
    exists_same_id_persistReviews rows rs r hr

/-- C2: running the page persistence twice on the same decoded page content
leaves the review table exactly as after one run — re-scraping never
duplicates or mutates review rows — because a review INSERT whose ID is
already present is a no-op, not an overwrite. -/
theorem c2_rescrape_idempotent (rows : List Review) (attrID : Int)
    (index : Nat) (url : String) (data : Json) :
    persistReviews
        (persistReviews rows
          (reviewWrites (runLists attrID index url (Json.traverse data)).1))
        (reviewWrites (runLists attrID index url (Json.traverse data)).1)
      = persistReviews rows
          (reviewWrites (runLists attrID index url (Json.traverse data)).1)
    ∧ ∀ (rows2 : List Review) (r : Review),
        (∃ r0 ∈ rows2, r0.ID = r.ID) → upsertReview rows2 r = rows2 := by
  refine ⟨persistReviews_idem _ _, ?_⟩
  rintro rows2 r ⟨r0, hr0, hid⟩
  unfold upsertReview
  rw [if_pos (List.any_eq_true.mpr ⟨r0, hr0, by simp [hid]⟩)]

theorem c2_rescrape_idempotent_witness :
    upsertReview [⟨some (Json.num 7), none, none, none, none, none, none⟩]
        ⟨some (Json.num 7), some (Json.str ("t")), none, none, none, none, none⟩
      = [⟨some (Json.num 7), none, none, none, none, none, none⟩] :=
  (c2_rescrape_idempotent [] 1 0 ("u") samplePage).2 _ _
    ⟨⟨some (Json.num 7), none, none, none, none, none, none⟩, by simp, rfl⟩

/-- C6 is refuted at this input: a response whose captured blob is not valid
JSON after the re-quoting fix-up makes `scrape_page` surface the decode error
as a fatal uncaught exception — the `json.loads` on reviews.py line 231 runs
outside the `try` — instead of entering the retry loop, contradicting "none
of these failure kinds is ever surfaced as a fatal error". -/
theorem c6_counterexample :
    scrapePageRun ("u") 1 0 [Response.blob Blob.invalid]
      = Outcome.raised PyErr.jsonDecodeError [Event.scrapingPage ("u")] := rfl

/-- C6 amended: transport failures and marker absence during the initial
fetch are handled by the unbounded retry loop, which prints, sleeps one
second and re-fetches, and no run of such failures is ever surfaced; the
empty-tree anomaly is retried by a second unbounded loop which does not
sleep; but an extraction failure in which the captured text is not valid JSON
after the re-quoting fix-up is surfaced as a fatal uncaught error out of
`scrape_page`, and so are transport and extraction failures hit during an
empty-tree re-fetch. -/
theorem c6_retry_policy :
    (∀ (url : String) (rest : List Response),
      fetchLoop url (Response.transportError :: rest)
        = (Event.reloading url :: Event.sleepSec 1 :: (fetchLoop url rest).1,
           (fetchLoop url rest).2))
    ∧ (∀ (url : String) (rest : List Response),
      fetchLoop url (Response.noMarker :: rest)
        = (Event.reloading url :: Event.sleepSec 1 :: (fetchLoop url rest).1,
           (fetchLoop url rest).2))
    ∧ (∀ (url : String) (n : Nat),
      (fetchLoop url (List.replicate n Response.transportError)).2 = none)
    ∧ (∀ (url : String) (attrID : Int) (index : Nat) (stream : List Response),
      scrapePageRun url attrID index (Response.blob Blob.invalid :: stream)
        = Outcome.raised PyErr.jsonDecodeError [Event.scrapingPage url])
    ∧ (∀ (index : Nat) (stream : List Response) (data : Json),
      Json.traverse data = [] →
      searchLoop index (Response.transportError :: stream) data
        = SearchResult.raised PyErr.transportError [Event.weirdRetry index]
      ∧ searchLoop index (Response.noMarker :: stream) data
        = SearchResult.raised PyErr.attributeError [Event.weirdRetry index]
      ∧ searchLoop index (Response.blob Blob.invalid :: stream) data
        = SearchResult.raised PyErr.jsonDecodeError [Event.weirdRetry index])
    ∧ (∀ (index : Nat) (data : Json) (n : Nat), Json.traverse data = [] →
      searchLoop index (List.replicate n (Response.blob (Blob.valid data))) data
        = SearchResult.looping (List.replicate (n + 1) (Event.weirdRetry index))) := by
  refine ⟨fun url rest => rfl, fun url rest => rfl, ?_, fun url a i s => rfl, ?_, ?_⟩
  · intro url n
    induction n with
    | zero => rfl
    | succ n ih => simpa [List.replicate_succ, fetchLoop] using ih
  · intro index stream data h
    refine ⟨?_, ?_, ?_⟩ <;> (rw [searchLoop.eq_def]; simp [h])
  · intro index data n h
    induction n with
    | zero =>
      rw [searchLoop.eq_def]
      simp [h]
    | succ n ih =>
      rw [List.replicate_succ, searchLoop.eq_def]
      simp only [h, List.isEmpty_nil, if_true, ih]
      simp [List.replicate_succ]

theorem c6_retry_policy_witness :
    (fetchLoop ("u") (List.replicate 3 Response.transportError)).2 = none
    ∧ searchLoop 0 [Response.transportError] Json.null
        = SearchResult.raised PyErr.transportError [Event.weirdRetry 0]
    ∧ searchLoop 0 (List.replicate 2 (Response.blob (Blob.valid Json.null))) Json.null
        = SearchResult.looping (List.replicate 3 (Event.weirdRetry 0)) :=
  ⟨c6_retry_policy.2.2.1 ("u") 3,
   (c6_retry_policy.2.2.2.2.1 0 [] Json.null rfl).1,
   c6_retry_policy.2.2.2.2.2 0 Json.null 2 rfl⟩

theorem getPath_cons_none (r : Json) (ks : List String)
    (h : Json.getKey r ("userProfile") = none) :
    Json.getPath r ("userProfile" :: ks) = none := by
  simp [Json.getPath, h]

theorem processRecord_eq_of_requiredOk (attrID : Int) (index : Nat)
    (url : String) (ridx : Nat) (r : Json) (h : requiredOk r = true) :
    processRecord attrID index url ridx r
      = Except.ok (reviewOf attrID r, userOf r,
          missingDiags attrID index url ridx r) := by
  simp only [requiredOk, Bool.and_eq_true, Option.isSome_iff_exists] at h
  obtain ⟨⟨⟨⟨⟨vid, hid⟩, vt, ht⟩, vr, hr⟩, vx, hx⟩, vd, hd⟩ := h
  simp [processRecord, reqField, hid, ht, hr, hx, hd, reviewOf, userOf,
    missingDiags, Bind.bind, Except.bind, Pure.pure, Except.pure]

/-- C7: a record whose required fields are present never makes the mapping
raise: each optional user sub-field whose guarded access fails is logged with
its locating context and left absent, and the `Review` is still produced and
its INSERT issued; when `userProfile` is absent all four user sub-fields are
logged, the review's user profile and the whole user are absent, and the
user INSERT is skipped in favour of the "Empty user information" log; the
user INSERT is issued exactly when the profile identity is present as a
Python value — an absent profile, and equally a profile holding decoded JSON
`null` (Python `None`), is skipped and logged. -/
theorem c7_optional_fields (attrID : Int) (index : Nat) (url : String)
    (ridx : Nat) (r : Json) (hreq : requiredOk r = true) :
    processRecord attrID index url ridx r
      = Except.ok (reviewOf attrID r, userOf r,
          missingDiags attrID index url ridx r)
    ∧ (Json.getKey r ("userProfile") = none →
        (reviewOf attrID r).user_profile = none
        ∧ userOf r = ⟨none, none, none, none⟩
        ∧ missingDiags attrID index url ridx r
          = [Event.missing ⟨"user profile", attrID, index, (ridx : Int), url⟩,
             Event.missing ⟨"user location", attrID, index, (ridx : Int), url⟩,
             Event.missing ⟨"user contributions", attrID, index, (ridx : Int), url⟩,
             Event.missing ⟨"helpful", attrID, index, (ridx : Int), url⟩])
    ∧ (∀ (rev : Review) (user : User) (diags : List Event),
        user.profile = none →
        recordEvents rev user diags
          = diags ++ [Event.updatingUser none, Event.emptyUserInfo,
              Event.reviewUpsert rev])
    ∧ (∀ (rev : Review) (user : User) (diags : List Event),
        user.profile = some Json.null →
        recordEvents rev user diags
          = diags ++ [Event.updatingUser (some Json.null), Event.emptyUserInfo,
              Event.reviewUpsert rev])
    ∧ (∀ (rev : Review) (user : User) (diags : List Event) (p : Json),
        user.profile = some p → p ≠ Json.null →
        recordEvents rev user diags
          = diags ++ [Event.updatingUser (some p), Event.userUpsert user,
              Event.reviewUpsert rev]) := by
  refine ⟨processRecord_eq_of_requiredOk attrID index url ridx r hreq,
    ?_, ?_, ?_, ?_⟩
  · intro hup
    refine ⟨?_, ?_, ?_⟩
    · simp [reviewOf, getPath_cons_none r _ hup, pyNorm]
    · simp [userOf, getPath_cons_none r _ hup, pyNorm]
    · simp [missingDiags, getPath_cons_none r _ hup]
  · intro rev user diags hu
    simp [recordEvents, hu, pyNorm]
  · intro rev user diags hu
    simp [recordEvents, hu, pyNorm]
  · intro rev user diags p hu hp
    have hn : pyNorm (some p) = some p := by
      cases p
      case null => exact absurd rfl hp
      all_goals rfl
    simp [recordEvents, hu, hn]

theorem c7_optional_fields_witness :
    processRecord 1 0 ("u") 0 sampleRecord
      = Except.ok (reviewOf 1 sampleRecord, userOf sampleRecord,
          missingDiags 1 0 ("u") 0 sampleRecord)
    ∧ userOf sampleRecord = ⟨none, none, none, none⟩
    ∧ recordEvents (reviewOf 1 sampleRecord) (userOf sampleRecord)
        (missingDiags 1 0 ("u") 0 sampleRecord)
      = missingDiags 1 0 ("u") 0 sampleRecord
        ++ [Event.updatingUser none, Event.emptyUserInfo,
            Event.reviewUpsert (reviewOf 1 sampleRecord)]
    ∧ recordEvents (reviewOf 1 sampleRecord)
        ⟨some Json.null, none, none, none⟩ []
      = [Event.updatingUser (some Json.null), Event.emptyUserInfo,
         Event.reviewUpsert (reviewOf 1 sampleRecord)]
    ∧ recordEvents (reviewOf 1 sampleRecord)
        ⟨some (Json.str ("p")), none, none, none⟩ []
      = [Event.updatingUser (some (Json.str ("p"))),
         Event.userUpsert ⟨some (Json.str ("p")), none, none, none⟩,
         Event.reviewUpsert (reviewOf 1 sampleRecord)] :=
  ⟨(c7_optional_fields 1 0 ("u") 0 sampleRecord rfl).1,
   ((c7_optional_fields 1 0 ("u") 0 sampleRecord rfl).2.1 rfl).2.1,
   (c7_optional_fields 1 0 ("u") 0 sampleRecord rfl).2.2.1
     (reviewOf 1 sampleRecord) (userOf sampleRecord)
     (missingDiags 1 0 ("u") 0 sampleRecord) rfl,
   (c7_optional_fields 1 0 ("u") 0 sampleRecord rfl).2.2.2.1
     (reviewOf 1 sampleRecord) ⟨some Json.null, none, none, none⟩ [] rfl,
   (c7_optional_fields 1 0 ("u") 0 sampleRecord rfl).2.2.2.2
     (reviewOf 1 sampleRecord) ⟨some (Json.str ("p")), none, none, none⟩ []
     (Json.str ("p")) rfl (by decide)⟩

theorem processRecord_error_of_missing (attrID : Int) (index : Nat)
    (url : String) (ridx : Nat) (r : Json) (h : requiredOk r = false) :
    processRecord attrID index url ridx r = Except.error PyErr.lookupError := by
  cases hid : Json.getKey r ("id") with
  | none => simp [processRecord, reqField, hid, Bind.bind, Except.bind]
  | some vid =>
    cases ht : Json.getKey r ("title") with
    | none => simp [processRecord, reqField, hid, ht, Bind.bind, Except.bind]
    | some vt =>
      cases hr : Json.getKey r ("rating") with
      | none =>
        simp [processRecord, reqField, hid, ht, hr, Bind.bind, Except.bind]
      | some vr =>
        cases hx : Json.getKey r ("text") with
        | none =>
          simp [processRecord, reqField, hid, ht, hr, hx, Bind.bind, Except.bind]
        | some vx =>
          cases hd : Json.getKey r ("publishedDate") with
          | none =>
            simp [processRecord, reqField, hid, ht, hr, hx, hd, Bind.bind,
              Except.bind]
          | some vd =>
            exfalso
            simp [requiredOk, hid, ht, hr, hx, hd] at h

theorem processRecords_append_of_error (attrID : Int) (index : Nat)
    (url : String) (more : List Json) :
    ∀ (ridx : Nat) (rs : List Json),
      (processRecords attrID index url ridx rs).2.isSome →
      processRecords attrID index url ridx (rs ++ more)
        = processRecords attrID index url ridx rs := by
  intro ridx rs
  induction rs generalizing ridx with
  | nil =>
    intro h
    simp [processRecords] at h
  | cons r rs ih =>
    intro h
    rw [List.cons_append]
    cases hp : processRecord attrID index url ridx r with
    | error e => simp [processRecords, hp]
    | ok t =>
      obtain ⟨rev, u, diags⟩ := t
      simp only [processRecords, hp] at h ⊢
      rw [ih (ridx + 1) h]

theorem runLists_append_of_error (attrID : Int) (index : Nat) (url : String)
    (more : List Json) :
    ∀ vs : List Json, (runLists attrID index url vs).2.isSome →
      runLists attrID index url (vs ++ more) = runLists attrID index url vs := by
  intro vs
  induction vs with
  | nil =>
    intro h
    simp [runLists] at h
  | cons v vs ih =>
    intro h
    rw [List.cons_append]
    cases ht : v.truthy with
    | false =>
      simp only [runLists, ht, Bool.false_eq_true, if_false] at h ⊢
      rw [ih h]
    | true =>
      cases v with
      | arr xs =>
        cases hp : processRecords attrID index url 0 (JsonList.toList xs) with
        | mk evs err =>
          cases err with
          | some e => simp [runLists, ht, hp]
          | none =>
            simp only [runLists, ht, if_true, hp] at h ⊢
            rw [ih h]
      | null => simp [runLists, ht]
      | bool b => simp [runLists, ht]
      | num n => simp [runLists, ht]
      | str s => simp [runLists, ht]
      | obj kvs => simp [runLists, ht]

theorem processRecords_isSome_of_bad (attrID : Int) (index : Nat)
    (url : String) :
    ∀ (ridx : Nat) (rs : List Json), (∃ r ∈ rs, requiredOk r = false) →
      (processRecords attrID index url ridx rs).2.isSome := by
  intro ridx rs
  induction rs generalizing ridx with
  | nil =>
    rintro ⟨r, hr, _⟩
    simp at hr
  | cons r rs ih =>
    rintro ⟨r1, hr1, hbad⟩
    rcases List.mem_cons.mp hr1 with h1 | h1
    · subst h1
      simp [processRecords,
        processRecord_error_of_missing attrID index url ridx r1 hbad]
    · cases hp : processRecord attrID index url ridx r with
      | error e => simp [processRecords, hp]
      | ok t =>
        obtain ⟨rev, u, diags⟩ := t
        simp only [processRecords, hp]
        exact ih (ridx + 1) ⟨r1, h1, hbad⟩

theorem runLists_isSome_cons (attrID : Int) (index : Nat) (url : String)
    (v : Json) (vs : List Json)
    (h : (runLists attrID index url vs).2.isSome) :
    (runLists attrID index url (v :: vs)).2.isSome := by
  cases ht : v.truthy with
  | false => simpa [runLists, ht] using h
  | true =>
    cases v with
    | arr xs =>
      cases hp : processRecords attrID index url 0 (JsonList.toList xs) with
      | mk evs err =>
        cases err with
        | some e => simp [runLists, ht, hp]
        | none => simpa [runLists, ht, hp] using h
    | null => simp [runLists, ht]
    | bool b => simp [runLists, ht]
    | num n => simp [runLists, ht]
    | str s => simp [runLists, ht]
    | obj kvs => simp [runLists, ht]

theorem runLists_isSome_of_bad (attrID : Int) (index : Nat) (url : String) :
    ∀ vs : List Json,
      (∃ xs : JsonList, Json.arr xs ∈ vs
        ∧ ∃ r ∈ JsonList.toList xs, requiredOk r = false) →
      (runLists attrID index url vs).2.isSome := by
  intro vs
  induction vs with
  | nil =>
    rintro ⟨xs, hmem, _⟩
    simp at hmem
  | cons v vs ih =>
    rintro ⟨xs, hmem, r, hr, hbad⟩
    rcases List.mem_cons.mp hmem with h1 | h1
    · subst h1
      cases xs with
      | nil => simp [JsonList.toList] at hr
      | cons hd tl =>
        have hsome := processRecords_isSome_of_bad attrID index url 0
          (JsonList.toList (JsonList.cons hd tl)) ⟨r, hr, hbad⟩
        cases hp : processRecords attrID index url 0
            (JsonList.toList (JsonList.cons hd tl)) with
        | mk evs err =>
          cases err with
          | some e => simp [runLists, Json.truthy, hp]
          | none =>
            rw [hp] at hsome
            simp at hsome
    · exact runLists_isSome_cons attrID index url v vs (ih ⟨xs, h1, r, hr, hbad⟩)

/-- C10: a raw record missing any required field makes the lookup raise: the
record mapping returns the uncaught lookup error; an exception from a record
aborts the remaining records of its list and the remaining yielded lists of
the page (records or lists appended after a failing prefix change nothing);
and a page one of whose yielded lists contains such a record makes
`scrape_page` raise — unlike the optional user sub-fields, required fields
have no soft-fail tolerance. -/
theorem c10_required_fields :
    (∀ (attrID : Int) (index : Nat) (url : String) (ridx : Nat) (r : Json),
      requiredOk r = false →
      processRecord attrID index url ridx r = Except.error PyErr.lookupError)
    ∧ (∀ (attrID : Int) (index : Nat) (url : String) (ridx : Nat)
        (rs more : List Json),
      (processRecords attrID index url ridx rs).2.isSome →
      processRecords attrID index url ridx (rs ++ more)
        = processRecords attrID index url ridx rs)
    ∧ (∀ (attrID : Int) (index : Nat) (url : String) (vs more : List Json),
      (runLists attrID index url vs).2.isSome →
      runLists attrID index url (vs ++ more) = runLists attrID index url vs)
    ∧ (∀ (url : String) (attrID : Int) (index : Nat) (stream : List Response)
        (data : Json),
      Json.traverse data ≠ [] →
      (∃ xs : JsonList, Json.arr xs ∈ Json.traverse data
        ∧ ∃ r ∈ JsonList.toList xs, requiredOk r = false) →
      ∃ e evs, scrapePageRun url attrID index
          (Response.blob (Blob.valid data) :: stream) = Outcome.raised e evs) := by
  refine ⟨processRecord_error_of_missing,
    fun a i u ridx rs more h => processRecords_append_of_error a i u more ridx rs h,
    fun a i u vs more h => runLists_append_of_error a i u more vs h, ?_⟩
  intro url attrID index stream data hne hbad
  have hfound : searchLoop index stream data = SearchResult.found data stream [] := by
    rw [searchLoop.eq_def]
    simp [hne]
  have hsome := runLists_isSome_of_bad attrID index url (Json.traverse data) hbad
  cases hrl : runLists attrID index url (Json.traverse data) with
  | mk evs err =>
    cases err with
    | none =>
      rw [hrl] at hsome
      simp at hsome
    | some e =>
      exact ⟨e, Event.scrapingPage url :: evs,
        by simp [scrapePageRun, fetchLoop, hfound, hrl]⟩

theorem c10_required_fields_witness :
    processRecord 1 0 ("u") 0 badRecord = Except.error PyErr.lookupError
    ∧ runLists 1 0 ("u") ([Json.arr (JsonList.cons badRecord JsonList.nil)]
          ++ [Json.arr JsonList.nil])
        = runLists 1 0 ("u") [Json.arr (JsonList.cons badRecord JsonList.nil)]
    ∧ ∃ e evs, scrapePageRun ("u") 1 0 [Response.blob (Blob.valid badPage)]
        = Outcome.raised e evs :=
  ⟨c10_required_fields.1 1 0 ("u") 0 badRecord rfl,
   c10_required_fields.2.2.1 1 0 ("u")
     [Json.arr (JsonList.cons badRecord JsonList.nil)] [Json.arr JsonList.nil]
     (by decide),
   c10_required_fields.2.2.2 ("u") 1 0 [] badPage (by decide)
     ⟨JsonList.cons badRecord JsonList.nil, by decide, badRecord, by decide, rfl⟩⟩

theorem reviewWrites_append (a b : List Event) :
    reviewWrites (a ++ b) = reviewWrites a ++ reviewWrites b := by
  simp [reviewWrites]

theorem reviewWrites_missingDiags (attrID : Int) (index : Nat) (url : String)
    (ridx : Nat) (r : Json) :
    reviewWrites (missingDiags attrID index url ridx r) = [] := by
  simp only [missingDiags]
  split_ifs <;> rfl

theorem reviewWrites_recordEvents (rev : Review) (user : User)
    (diags : List Event) :
    reviewWrites (recordEvents rev user diags) = reviewWrites diags ++ [rev] := by
  cases hu : pyNorm user.profile <;> simp [recordEvents, hu, reviewWrites]

theorem isNoReviews_missingDiags (attrID : Int) (index : Nat) (url : String)
    (ridx : Nat) (r : Json) :
    (missingDiags attrID index url ridx r).countP Event.isNoReviews = 0 := by
  simp only [missingDiags]
  split_ifs <;> rfl

theorem isNoReviews_recordEvents (rev : Review) (user : User)
    (diags : List Event) (h : diags.countP Event.isNoReviews = 0) :
    (recordEvents rev user diags).countP Event.isNoReviews = 0 := by
  cases hu : pyNorm user.profile <;>
    simp [recordEvents, hu, List.countP_append, List.countP_cons, h,
      Event.isNoReviews]

theorem processRecords_all_ok (attrID : Int) (index : Nat) (url : String) :
    ∀ (ridx : Nat) (rs : List Json), rs.all requiredOk = true →
      (processRecords attrID index url ridx rs).2 = none
      ∧ reviewWrites (processRecords attrID index url ridx rs).1
          = rs.map (reviewOf attrID)
      ∧ (processRecords attrID index url ridx rs).1.countP Event.isNoReviews
          = 0 := by
  intro ridx rs
  induction rs generalizing ridx with
  | nil => exact fun _ => ⟨rfl, rfl, rfl⟩
  | cons r rs ih =>
    intro h
    rw [List.all_cons, Bool.and_eq_true] at h
    obtain ⟨h1, h2⟩ := h
    obtain ⟨ih1, ih2, ih3⟩ := ih (ridx + 1) h2
    have hp := processRecord_eq_of_requiredOk attrID index url ridx r h1
    refine ⟨?_, ?_, ?_⟩
    · simp only [processRecords, hp, ih1]
    · simp only [processRecords, hp]
      rw [reviewWrites_append, reviewWrites_recordEvents,
        reviewWrites_missingDiags, ih2, List.map_cons]
      simp
    · simp only [processRecords, hp]
      rw [List.countP_append, ih3,
        isNoReviews_recordEvents _ _ _ (isNoReviews_missingDiags _ _ _ _ _)]

theorem runLists_wellFormed (attrID : Int) (index : Nat) (url : String) :
    ∀ vs : List Json, wellFormedLists vs = true →
      (runLists attrID index url vs).2 = none
      ∧ reviewWrites (runLists attrID index url vs).1
          = vs.flatMap (fun v => (yieldedRecords v).map (reviewOf attrID))
      ∧ (runLists attrID index url vs).1.countP Event.isNoReviews
          = vs.countP (fun v => v = Json.arr JsonList.nil) := by
  intro vs
  induction vs with
  | nil => exact fun _ => ⟨rfl, rfl, rfl⟩
  | cons v vs ih =>
    intro h
    rw [wellFormedLists, List.all_cons, Bool.and_eq_true] at h
    obtain ⟨h1, h2⟩ := h
    obtain ⟨ih1, ih2, ih3⟩ := ih h2
    cases v with
    | null => simp at h1
    | bool b => simp at h1
    | num n => simp at h1
    | str s => simp at h1
    | obj kvs => simp at h1
    | arr xs =>
      cases xs with
      | nil =>
        refine ⟨by simpa [runLists, Json.truthy] using ih1, ?_, ?_⟩
        · simp only [runLists, Json.truthy, Bool.false_eq_true, if_false]
          rw [List.flatMap_cons,
            show yieldedRecords (Json.arr JsonList.nil) = [] from rfl,
            List.map_nil, List.nil_append, ← ih2]
          simp [reviewWrites]
        · simp only [runLists, Json.truthy, Bool.false_eq_true, if_false]
          rw [List.countP_cons, List.countP_cons, ih3]
          simp [Event.isNoReviews]
      | cons hd tl =>
        obtain ⟨p1, p2, p3⟩ := processRecords_all_ok attrID index url 0
          (JsonList.toList (JsonList.cons hd tl)) h1
        cases hp : processRecords attrID index url 0
            (JsonList.toList (JsonList.cons hd tl)) with
        | mk pEvs err =>
          rw [hp] at p1 p2 p3
          subst p1
          refine ⟨by simpa [runLists, Json.truthy, hp] using ih1, ?_, ?_⟩
          · simp only [runLists, Json.truthy, if_true, hp]
            rw [reviewWrites_append, p2, ih2]
            simp [yieldedRecords, List.flatMap_cons]
          · simp only [runLists, Json.truthy, if_true, hp]
            rw [List.countP_append, p3, ih3]
            simp [List.countP_cons]

/-- C4: on a well-formed page the processing loop maps and persists exactly
the records of every non-empty list yielded by the tree search, in source
order (the review INSERTs are the mapped records of the yielded lists
concatenated in yield order); every empty yielded list produces one
"no reviews found" diagnostic and is skipped without error; and the whole
traversal — including the first yielded value, which the emptiness peek
consumed from a generator restarted on line 245 — is processed, so a
single-response run completes with exactly those events. -/
theorem c4_page_processing (attrID : Int) (index : Nat) (url : String)
    (data : Json) (h : wellFormedLists (Json.traverse data) = true) :
    (runLists attrID index url (Json.traverse data)).2 = none
    ∧ reviewWrites (runLists attrID index url (Json.traverse data)).1
        = (Json.traverse data).flatMap
            (fun v => (yieldedRecords v).map (reviewOf attrID))
    ∧ (runLists attrID index url (Json.traverse data)).1.countP
          Event.isNoReviews
        = (Json.traverse data).countP (fun v => v = Json.arr JsonList.nil)
    ∧ (Json.traverse data ≠ [] →
        scrapePageRun url attrID index [Response.blob (Blob.valid data)]
          = Outcome.done (Event.scrapingPage url
              :: (runLists attrID index url (Json.traverse data)).1)) := by
  obtain ⟨h1, h2, h3⟩ := runLists_wellFormed attrID index url
    (Json.traverse data) h
  refine ⟨h1, h2, h3, ?_⟩
  intro hne
  have hfound : searchLoop index [] data = SearchResult.found data [] [] := by
    rw [searchLoop.eq_def]
    simp [hne]
  cases hrl : runLists attrID index url (Json.traverse data) with
  | mk evs err =>
    cases err with
    | some e =>
      rw [hrl] at h1
      simp at h1
    | none => simp [scrapePageRun, fetchLoop, hfound, hrl]

theorem c4_page_processing_witness :
    scrapePageRun ("u") 1 0 [Response.blob (Blob.valid samplePage)]
      = Outcome.done (Event.scrapingPage ("u")
          :: (runLists 1 0 ("u") (Json.traverse samplePage)).1)
    ∧ reviewWrites (runLists 1 0 ("u") (Json.traverse samplePage)).1
      = (Json.traverse samplePage).flatMap
          (fun v => (yieldedRecords v).map (reviewOf 1)) :=
  ⟨(c4_page_processing 1 0 ("u") samplePage (by decide)).2.2.2 (by decide),
   (c4_page_processing 1 0 ("u") samplePage (by decide)).2.1⟩

theorem eq_of_mem_ite_singleton {α : Type _} {c : Prop} [Decidable c]
    {x e : α} (h : e ∈ if c then [x] else []) : e = x := by
  split at h
  · simpa using h
  · simp at h

theorem pageInner_missingDiags (attrID : Int) (index : Nat) (url : String)
    (ridx : Nat) (r : Json) :
    ∀ e ∈ missingDiags attrID index url ridx r, e.pageInner = true := by
  intro e he
  simp only [missingDiags, List.mem_append] at he
  rcases he with h | h | h | h <;> rw [eq_of_mem_ite_singleton h] <;> rfl

theorem pageInner_recordEvents (rev : Review) (user : User)
    (diags : List Event) (hd : ∀ e ∈ diags, e.pageInner = true) :
    ∀ e ∈ recordEvents rev user diags, e.pageInner = true := by
  intro e he
  unfold recordEvents at he
  rw [List.mem_append] at he
  rcases he with h | h
  · rw [List.mem_append] at h
    rcases h with h | h
    · exact hd e h
    · cases hu : pyNorm user.profile <;> rw [hu] at h <;>
        simp only [List.mem_cons, List.mem_singleton,
          List.not_mem_nil, or_false] at h
      · rcases h with h | h <;> subst h <;> rfl
      · rcases h with h | h <;> subst h <;> rfl
  · rw [List.mem_singleton] at h
    subst h; rfl

theorem pageInner_processRecord (attrID : Int) (index : Nat) (url : String)
    (ridx : Nat) (r : Json) (rev : Review) (u : User) (diags : List Event)
    (hp : processRecord attrID index url ridx r = Except.ok (rev, u, diags)) :
    ∀ e ∈ diags, e.pageInner = true := by
  by_cases hreq : requiredOk r = true
  · rw [processRecord_eq_of_requiredOk attrID index url ridx r hreq] at hp
    obtain ⟨-, -, h3⟩ : rev = reviewOf attrID r ∧ u = userOf r
        ∧ diags = missingDiags attrID index url ridx r := by
      injection hp with hp
      injection hp with h1 hp
      injection hp with h2 h3
      exact ⟨h1.symm, h2.symm, h3.symm⟩
    rw [h3]
    exact pageInner_missingDiags attrID index url ridx r
  · rw [processRecord_error_of_missing attrID index url ridx r
      (Bool.eq_false_iff.mpr hreq)] at hp
    exact absurd hp (by simp)

theorem pageInner_processRecords (attrID : Int) (index : Nat) (url : String) :
    ∀ (ridx : Nat) (rs : List Json),
      ∀ e ∈ (processRecords attrID index url ridx rs).1, e.pageInner = true := by
  intro ridx rs
  induction rs generalizing ridx with
  | nil => simp [processRecords]
  | cons r rs ih =>
    intro e he
    cases hp : processRecord attrID index url ridx r with
    | error err => simp [processRecords, hp] at he
    | ok t =>
      obtain ⟨rev, u, diags⟩ := t
      simp only [processRecords, hp, List.mem_append] at he
      rcases he with he | he
      · exact pageInner_recordEvents rev u diags
          (pageInner_processRecord attrID index url ridx r rev u diags hp) e he
      · exact ih (ridx + 1) e he

theorem pageInner_runLists (attrID : Int) (index : Nat) (url : String) :
    ∀ vs : List Json,
      ∀ e ∈ (runLists attrID index url vs).1, e.pageInner = true := by
  intro vs
  induction vs with
  | nil => simp [runLists]
  | cons v vs ih =>
    intro e he
    cases ht : v.truthy with
    | false =>
      simp only [runLists, ht, Bool.false_eq_true, if_false,
        List.mem_cons] at he
      rcases he with h | h
      · rw [h]; rfl
      · exact ih e h
    | true =>
      cases v with
      | arr xs =>
        cases hp : processRecords attrID index url 0 (JsonList.toList xs) with
        | mk pEvs err =>
          cases err with
          | some er =>
            simp only [runLists, ht, if_true, hp] at he
            have := pageInner_processRecords attrID index url 0
              (JsonList.toList xs) e
            rw [hp] at this
            exact this he
          | none =>
            simp only [runLists, ht, if_true, hp, List.mem_append] at he
            rcases he with h | h
            · have := pageInner_processRecords attrID index url 0
                (JsonList.toList xs) e
              rw [hp] at this
              exact this h
            · exact ih e h
      | null => simp [runLists, ht] at he
      | bool b => simp [runLists, ht] at he
      | num n => simp [runLists, ht] at he
      | str s => simp [runLists, ht] at he
      | obj kvs => simp [runLists, ht] at he

theorem pageInner_fetchLoop (url : String) :
    ∀ stream : List Response,
      ∀ e ∈ (fetchLoop url stream).1, e.pageInner = true := by
  intro stream
  induction stream with
  | nil => simp [fetchLoop]
  | cons rsp rest ih =>
    cases rsp with
    | transportError =>
      intro e he
      simp only [fetchLoop, List.mem_cons] at he
      rcases he with h | h | h
      · rw [h]; rfl
      · rw [h]; rfl
      · exact ih e h
    | noMarker =>
      intro e he
      simp only [fetchLoop, List.mem_cons] at he
      rcases he with h | h | h
      · rw [h]; rfl
      · rw [h]; rfl
      · exact ih e h
    | blob b =>
      intro e he
      simp [fetchLoop] at he

theorem searchLoop_eq (index : Nat) (stream : List Response) (data : Json) :
    searchLoop index stream data
      = if (Json.traverse data).isEmpty then
          match stream with
          | [] => SearchResult.looping [Event.weirdRetry index]
          | .transportError :: _ =>
            SearchResult.raised PyErr.transportError [Event.weirdRetry index]
          | .noMarker :: _ =>
            SearchResult.raised PyErr.attributeError [Event.weirdRetry index]
          | .blob .invalid :: _ =>
            SearchResult.raised PyErr.jsonDecodeError [Event.weirdRetry index]
          | .blob (.valid d) :: rest =>
            match searchLoop index rest d with
            | .looping evs => .looping (Event.weirdRetry index :: evs)
            | .raised e evs => .raised e (Event.weirdRetry index :: evs)
            | .found d2 s2 evs => .found d2 s2 (Event.weirdRetry index :: evs)
        else SearchResult.found data stream [] := by
  rw [searchLoop.eq_def]

theorem pageInner_searchLoop (index : Nat) :
    ∀ (stream : List Response) (data : Json),
      ∀ e ∈ (searchLoop index stream data).events, e.pageInner = true := by
  intro stream
  induction stream with
  | nil =>
    intro data e he
    rw [searchLoop_eq] at he
    by_cases hemp : (Json.traverse data).isEmpty
    · rw [if_pos hemp] at he
      simp only [SearchResult.events, List.mem_singleton] at he
      subst he; rfl
    · rw [if_neg hemp] at he
      simp [SearchResult.events] at he
  | cons rsp rest ih =>
    intro data e he
    rw [searchLoop_eq] at he
    by_cases hemp : (Json.traverse data).isEmpty
    · rw [if_pos hemp] at he
      cases rsp with
      | transportError =>
        simp only [SearchResult.events, List.mem_singleton] at he
        subst he; rfl
      | noMarker =>
        simp only [SearchResult.events, List.mem_singleton] at he
        subst he; rfl
      | blob b =>
        cases b with
        | invalid =>
          simp only [SearchResult.events, List.mem_singleton] at he
          subst he; rfl
        | valid d =>
          cases hs : searchLoop index rest d with
          | looping evs =>
            simp only [hs, SearchResult.events, List.mem_cons] at he
            rcases he with h | h
            · subst h; rfl
            · have := ih d e
              rw [hs] at this
              exact this h
          | raised er evs =>
            simp only [hs, SearchResult.events, List.mem_cons] at he
            rcases he with h | h
            · subst h; rfl
            · have := ih d e
              rw [hs] at this
              exact this h
          | found d2 s2 evs =>
            simp only [hs, SearchResult.events, List.mem_cons] at he
            rcases he with h | h
            · subst h; rfl
            · have := ih d e
              rw [hs] at this
              exact this h
    · rw [if_neg hemp] at he
      simp [SearchResult.events] at he

theorem not_flags_of_pageInner (e : Event) (h : e.pageInner = true) :
    e.isScrapingPage = false ∧ e.isSetScraped = false
      ∧ e.isAttrUpsert = false := by
  cases e <;> simp_all [Event.pageInner, Event.isScrapingPage,
    Event.isSetScraped, Event.isAttrUpsert]

theorem scrapePageRun_done_counts (url : String) (attrID : Int) (index : Nat)
    (stream : List Response) (evs : List Event)
    (h : scrapePageRun url attrID index stream = Outcome.done evs) :
    evs.countP Event.isScrapingPage = 1
    ∧ evs.countP Event.isSetScraped = 0
    ∧ evs.countP Event.isAttrUpsert = 0 := by
  unfold scrapePageRun at h
  cases hf : fetchLoop url stream with
  | mk fevs fo =>
    simp only [hf] at h
    have hfin : ∀ e ∈ fevs, e.pageInner = true := by
      intro e he
      have := pageInner_fetchLoop url stream e
      rw [hf] at this
      exact this he
    cases fo with
    | none => simp at h
    | some p =>
      obtain ⟨b, rest⟩ := p
      cases b with
      | invalid => simp at h
      | valid data =>
        cases hs : searchLoop index rest data with
        | looping evs2 => simp only [hs] at h; simp at h
        | raised er evs2 => simp only [hs] at h; simp at h
        | found d2 s2 evs2 =>
          simp only [hs] at h
          have hsin : ∀ e ∈ evs2, e.pageInner = true := by
            intro e he
            have := pageInner_searchLoop index rest data e
            rw [hs] at this
            exact this he
          cases hr : runLists attrID index url (Json.traverse d2) with
          | mk evs3 err =>
            simp only [hr] at h
            have hrin : ∀ e ∈ evs3, e.pageInner = true := by
              intro e he
              have := pageInner_runLists attrID index url (Json.traverse d2) e
              rw [hr] at this
              exact this he
            cases err with
            | some er => simp at h
            | none =>
              simp only [Outcome.done.injEq] at h
              subst h
              have hall : ∀ e ∈ fevs ++ evs2 ++ evs3, e.pageInner = true := by
                intro e he
                simp only [List.mem_append] at he
                rcases he with (he | he) | he
                · exact hfin e he
                · exact hsin e he
                · exact hrin e he
              have z1 : (fevs ++ evs2 ++ evs3).countP Event.isScrapingPage = 0 :=
                List.countP_eq_zero.mpr fun e he => by
                  simp [(not_flags_of_pageInner e (hall e he)).1]
              have z2 : (fevs ++ evs2 ++ evs3).countP Event.isSetScraped = 0 :=
                List.countP_eq_zero.mpr fun e he => by
                  simp [(not_flags_of_pageInner e (hall e he)).2.1]
              have z3 : (fevs ++ evs2 ++ evs3).countP Event.isAttrUpsert = 0 :=
                List.countP_eq_zero.mpr fun e he => by
                  simp [(not_flags_of_pageInner e (hall e he)).2.2]
              refine ⟨?_, ?_, ?_⟩
              · exact (List.countP_cons Event.isScrapingPage
                  (Event.scrapingPage url) (fevs ++ evs2 ++ evs3)).trans
                  (by rw [z1]; rfl)
              · exact (List.countP_cons Event.isSetScraped
                  (Event.scrapingPage url) (fevs ++ evs2 ++ evs3)).trans
                  (by rw [z2]; rfl)
              · exact (List.countP_cons Event.isAttrUpsert
                  (Event.scrapingPage url) (fevs ++ evs2 ++ evs3)).trans
                  (by rw [z3]; rfl)

theorem runPages_counts (attrID : Int) (responses : String → List Response) :
    ∀ (links : List String) (index : Nat),
      (runPages attrID responses index links).2 = none →
      (runPages attrID responses index links).1.countP Event.isScrapingPage
          = links.length
      ∧ (runPages attrID responses index links).1.countP Event.isSetScraped = 0
      ∧ (runPages attrID responses index links).1.countP Event.isAttrUpsert
          = 0 := by
  intro links
  induction links with
  | nil => exact fun index _ => ⟨rfl, rfl, rfl⟩
  | cons link rest ih =>
    intro index h
    cases ho : scrapePageRun link attrID index (responses link) with
    | raised e evs => simp [runPages, ho] at h
    | looping evs => simp [runPages, ho] at h
    | done evs =>
      obtain ⟨c1, c2, c3⟩ := scrapePageRun_done_counts _ _ _ _ _ ho
      simp only [runPages, ho] at h ⊢
      obtain ⟨i1, i2, i3⟩ := ih (index + 1) h
      refine ⟨?_, ?_, ?_⟩
      · rw [List.countP_append, c1,
          List.countP_cons Event.isScrapingPage Event.throttle _, i1,
          List.length_cons,
          show (if Event.throttle.isScrapingPage = true then 1 else 0) = 0
            from rfl]
        omega
      · rw [List.countP_append, c2,
          List.countP_cons Event.isSetScraped Event.throttle _, i2,
          show (if Event.throttle.isSetScraped = true then 1 else 0) = 0
            from rfl]
      · rw [List.countP_append, c3,
          List.countP_cons Event.isAttrUpsert Event.throttle _, i3,
          show (if Event.throttle.isAttrUpsert = true then 1 else 0) = 0
            from rfl]

/-- C1: for every attraction row processed by `do_scrape` whose pages all
complete, the emitted trace is exactly the attraction metadata upsert first,
then the page events, then the scraped-flag transition to true: the metadata
upsert precedes every review upsert of the attraction, the page events
contain one page banner per generated page URL and no flag or metadata
writes, and the flag is set exactly once and only after every page URL has
been processed; a completed multi-row run is the concatenation of the
per-row traces. -/
theorem c1_orchestrator (baseUrl searchType : String)
    (details : String → AttrDetails) (responses : String → List Response)
    (row : Int × String)
    (h : (doScrapeRow baseUrl searchType details responses row).2 = none) :
    (doScrapeRow baseUrl searchType details responses row).1
      = Event.attrUpsert row.1 (details (baseUrl ++ row.2)).loc
            (details (baseUrl ++ row.2)).numReviews
        :: (runPages row.1 responses 0
            (generate_page_links (baseUrl ++ row.2) searchType
              (details (baseUrl ++ row.2)).numberOfPages)).1
        ++ [Event.setScraped row.1 true]
    ∧ (runPages row.1 responses 0
        (generate_page_links (baseUrl ++ row.2) searchType
          (details (baseUrl ++ row.2)).numberOfPages)).1.countP
        Event.isSetScraped = 0
    ∧ (runPages row.1 responses 0
        (generate_page_links (baseUrl ++ row.2) searchType
          (details (baseUrl ++ row.2)).numberOfPages)).1.countP
        Event.isAttrUpsert = 0
    ∧ (runPages row.1 responses 0
        (generate_page_links (baseUrl ++ row.2) searchType
          (details (baseUrl ++ row.2)).numberOfPages)).1.countP
        Event.isScrapingPage
      = (generate_page_links (baseUrl ++ row.2) searchType
          (details (baseUrl ++ row.2)).numberOfPages).length
    ∧ (doScrapeRow baseUrl searchType details responses row).1.countP
        Event.isSetScraped = 1
    ∧ (∀ rows : List (Int × String),
        (doScrape baseUrl searchType details responses rows).2 = none →
        (doScrape baseUrl searchType details responses rows).1
          = rows.flatMap (fun row2 =>
              (doScrapeRow baseUrl searchType details responses row2).1)) := by
  cases hrp : runPages row.1 responses 0
      (generate_page_links (baseUrl ++ row.2) searchType
        (details (baseUrl ++ row.2)).numberOfPages) with
  | mk pEvs perr =>
    cases perr with
    | some hh =>
      exfalso
      unfold doScrapeRow at h
      simp only [hrp] at h
      simp at h
    | none =>
      obtain ⟨q1, q2, q3⟩ := runPages_counts row.1 responses
        (generate_page_links (baseUrl ++ row.2) searchType
          (details (baseUrl ++ row.2)).numberOfPages) 0 (by rw [hrp])
      rw [hrp] at q1 q2 q3
      refine ⟨?_, ?_, ?_, ?_, ?_, ?_⟩
      · unfold doScrapeRow
        rw [hrp]
      · exact q2
      · exact q3
      · exact q1
      · unfold doScrapeRow
        simp only [hrp]
        exact (List.countP_cons Event.isSetScraped
            (Event.attrUpsert row.1 (details (baseUrl ++ row.2)).loc
              (details (baseUrl ++ row.2)).numReviews)
            (pEvs ++ [Event.setScraped row.1 true])).trans
          (by rw [List.countP_append, q2, List.countP_singleton]; rfl)
      · intro rows
        induction rows with
        | nil => exact fun _ => rfl
        | cons row2 rows2 ih2 =>
          intro hall
          cases hdr : doScrapeRow baseUrl searchType details responses row2 with
          | mk evs2 err2 =>
            cases err2 with
            | some hh =>
              exfalso
              unfold doScrape at hall
              simp only [hdr] at hall
              simp at hall
            | none =>
              have hall2 : (doScrape baseUrl searchType details responses
                  rows2).2 = none := by
                unfold doScrape at hall
                simpa only [hdr] using hall
              unfold doScrape
              rw [List.flatMap_cons]
              simp only [hdr, ih2 hall2]

theorem c1_orchestrator_witness :
    (doScrapeRow ("b") ("reviews") (fun _ => ⟨(1, 2), 10, 1⟩)
        (fun _ => [Response.blob (Blob.valid samplePage)]) (42, ("/a"))).1.countP
        Event.isSetScraped = 1
    ∧ (doScrape ("b") ("reviews") (fun _ => ⟨(1, 2), 10, 1⟩)
        (fun _ => [Response.blob (Blob.valid samplePage)]) [(42, ("/a"))]).1
      = [(42, ("/a"))].flatMap (fun row2 =>
          (doScrapeRow ("b") ("reviews") (fun _ => ⟨(1, 2), 10, 1⟩)
            (fun _ => [Response.blob (Blob.valid samplePage)]) row2).1) :=
  ⟨(c1_orchestrator ("b") ("reviews") (fun _ => ⟨(1, 2), 10, 1⟩)
      (fun _ => [Response.blob (Blob.valid samplePage)]) (42, ("/a"))
      (by decide)).2.2.2.2.1,
   (c1_orchestrator ("b") ("reviews") (fun _ => ⟨(1, 2), 10, 1⟩)
      (fun _ => [Response.blob (Blob.valid samplePage)]) (42, ("/a"))
      (by decide)).2.2.2.2.2 [(42, ("/a"))] (by decide)⟩

end Tripscrape
